import Mathlib

/-!
# Verification development for the lemonldap-ng.js SAML issuer core

This file gives a shallow embedding, in Lean 4, of the SAML IdP issuer core of
the repository: the Express router for the IdP endpoints
(`packages/issuer-saml/src/router.ts`), the dynamic `lasso.js` module loader
(`packages/lib-saml/src/lasso-loader.ts`), and — where the corresponding
module is absent from the provided sources — models of the binding codec, the
SSO session correlator and the issuer engine built faithfully from the
repository's specification.  Pure functions of the source become Lean
functions; the mutable module-level state of the lasso loader becomes explicit
state passing over a small step function; fallible operations return
`Option`/`Except`.
-/

/- ## Base64 codec

The HTTP-Redirect binding carries the SAML message deflate-compressed and
base64-encoded in a query parameter; the HTTP-POST binding carries it
base64-encoded (no deflate) in a form field.  Bytes are modelled as `Nat`
values below 256, sextets as `Nat` values below 64. -/

/-- The standard base64 alphabet, index `n` holding the digit for sextet `n`. -/
def b64Alphabet : List Char :=
  "ABCDEFGHIJKLMNOPQRSTUVWXYZabcdefghijklmnopqrstuvwxyz0123456789+/".data

/-- Base64 digit of a sextet (`n < 64`). -/
def charOfSextet (n : Nat) : Char :=
  b64Alphabet.getD n (Char.ofNat 61)

/-- Index of a character in a list of characters. -/
def findCharIdx (c : Char) : List Char → Option Nat
  | [] => none
  | d :: r => if d = c then some 0 else (findCharIdx c r).map (fun n => n + 1)

/-- Sextet value of a base64 digit; `none` for a character outside the
alphabet (this is how base64 decoding fails on malformed input). -/
def sextetOfChar (c : Char) : Option Nat :=
  findCharIdx c b64Alphabet

/-- The padding character. -/
def b64Pad : Char := Char.ofNat 61

/-- Base64 encoding of a byte list, three bytes to four digits, padded with
the character 61 at the end of a final one- or two-byte group. -/
def base64Encode : List Nat → List Char
  | [] => []
  | [b1] =>
      [charOfSextet (b1 / 4), charOfSextet (b1 % 4 * 16), b64Pad, b64Pad]
  | [b1, b2] =>
      [charOfSextet (b1 / 4), charOfSextet (b1 % 4 * 16 + b2 / 16),
       charOfSextet (b2 % 16 * 4), b64Pad]
  | b1 :: b2 :: b3 :: rest =>
      charOfSextet (b1 / 4) :: charOfSextet (b1 % 4 * 16 + b2 / 16) ::
      charOfSextet (b2 % 16 * 4 + b3 / 64) :: charOfSextet (b3 % 64) ::
      base64Encode rest

/-- Base64 decoding; `none` on a malformed input (bad length, stray padding,
or a character outside the alphabet). -/
def base64Decode : List Char → Option (List Nat)
  | [] => some []
  | c1 :: c2 :: c3 :: c4 :: rest =>
      if c3 = b64Pad ∧ c4 = b64Pad ∧ rest = [] then do
        let s1 ← sextetOfChar c1
        let s2 ← sextetOfChar c2
        pure [s1 * 4 + s2 / 16]
      else if c4 = b64Pad ∧ rest = [] then do
        let s1 ← sextetOfChar c1
        let s2 ← sextetOfChar c2
        let s3 ← sextetOfChar c3
        pure [s1 * 4 + s2 / 16, s2 % 16 * 16 + s3 / 4]
      else do
        let s1 ← sextetOfChar c1
        let s2 ← sextetOfChar c2
        let s3 ← sextetOfChar c3
        let s4 ← sextetOfChar c4
        let bs ← base64Decode rest
        pure ((s1 * 4 + s2 / 16) :: (s2 % 16 * 16 + s3 / 4) :: (s3 % 4 * 64 + s4) :: bs)
  | _ => none


/- ## Deflate model and the binding codec

The binding codec module itself is not among the provided sources (only its
callers are), so it is modelled from the specification, §4.1. -/

/-- Modelled from the spec: the zlib raw-deflate compression used by the
HTTP-Redirect binding (the binding-codec module is absent from the provided
sources).  Compression is modelled as a stored-block style framing — a
two-byte little-endian length header followed by the literal payload — which
keeps the codec concrete and exactly invertible for payloads under 65536
bytes. -/
def deflateRaw (l : List Nat) : List Nat :=
  l.length % 256 :: l.length / 256 % 256 :: l

/-- Modelled from the spec: raw-deflate decompression, the inverse of
`deflateRaw`; `none` when the framing is inconsistent (this is how
decompression fails on malformed input). -/
def inflateRaw : List Nat → Option (List Nat)
  | lo :: hi :: rest => if rest.length = lo + 256 * hi then some rest else none
  | _ => none

/-- Wire binding of a SAML message. -/
inductive SamlBinding
  | redirect
  | post
  | soap
  deriving DecidableEq, Repr

/-- Codec-level send instruction: a protocol message to be delivered through
the HTTP-Redirect binding (query parameter) or the HTTP-POST binding
(auto-submitting form field).  `isResponse` selects the `SAMLResponse`
parameter name over `SAMLRequest`. -/
inductive CodecInstr
  | redirectMsg (isResponse : Bool) (msg : List Nat)
  | postMsg (isResponse : Bool) (msg : List Nat)
  deriving Repr

/-- The HTTP shape consumed by `decode`: method, query parameters, parsed
form fields and the raw body. -/
structure WireRequest where
  method : String
  query : List (String × List Char)
  form : List (String × List Char)
  rawBody : List Char
  deriving Repr

/-- The query / form parameter name for a SAML message. -/
def samlParamName (isResponse : Bool) : String :=
  if isResponse then "SAMLResponse" else "SAMLRequest"

/-- Modelled from the spec: `encode(instruction) -> HTTPAnswer` of the binding
codec (module absent from the provided sources), restricted to the message
payload.  Redirect: the message is deflate-compressed, base64-encoded and
placed in a `SAMLRequest`/`SAMLResponse` query parameter of a GET.  POST: the
message is base64-encoded (no deflate) and placed in the equivalent form
field of an auto-submitting form. -/
def encode : CodecInstr → WireRequest
  | .redirectMsg r msg =>
      { method := "GET"
        query := [(samlParamName r, base64Encode (deflateRaw msg))]
        form := []
        rawBody := [] }
  | .postMsg r msg =>
      { method := "POST"
        query := []
        form := [(samlParamName r, base64Encode msg)]
        rawBody := [] }

/-- Binding-codec decode failure. -/
inductive CodecError
  | malformedMessage
  deriving DecidableEq, Repr

/-- Find the `SAMLRequest`/`SAMLResponse` parameter in a parameter list. -/
def findSamlParam (ps : List (String × List Char)) : Option (List Char) :=
  (ps.find? (fun kv => kv.1 == "SAMLRequest" || kv.1 == "SAMLResponse")).map
    (fun kv => kv.2)

/-- Modelled from the spec: `decode(method, query, body) -> (binding, message)`
of the binding codec (module absent from the provided sources).  A
`SAMLRequest`/`SAMLResponse` query parameter selects the Redirect binding
(base64 then inflate); the equivalent form field selects the POST binding
(base64 only); a non-empty raw XML body selects SOAP; otherwise, or when
base64/decompression fails, the decode fails with `MalformedMessage`. -/
def decode (w : WireRequest) : Except CodecError (SamlBinding × List Nat) :=
  match findSamlParam w.query with
  | some v =>
      match base64Decode v with
      | none => .error .malformedMessage
      | some bs =>
          match inflateRaw bs with
          | none => .error .malformedMessage
          | some msg => .ok (.redirect, msg)
  | none =>
      match findSamlParam w.form with
      | some v =>
          match base64Decode v with
          | none => .error .malformedMessage
          | some msg => .ok (.post, msg)
      | none =>
          match w.rawBody with
          | [] => .error .malformedMessage
          | c :: r => .ok (.soap, (c :: r).map Char.toNat)

/- ## XML escaping for SOAP faults

From `createSAMLIssuerRouter` (router source, `/singleLogoutSOAP` error
path): `errorMessage.replace(/[<>&"']/g, c => ({...})[c] || c)`. -/

/-- The double-quote character. -/
def cQuote : Char := Char.ofNat 34

/-- The apostrophe character. -/
def cApos : Char := Char.ofNat 39

/-- Escape one character exactly as the router's replacement map does:
`<` `>` `&` `"` and the apostrophe become the five XML entities, every other
character is kept. -/
def escChar (c : Char) : List Char :=
  if c = '<' then ['&', 'l', 't', ';']
  else if c = '>' then ['&', 'g', 't', ';']
  else if c = '&' then ['&', 'a', 'm', 'p', ';']
  else if c = cQuote then ['&', 'q', 'u', 'o', 't', ';']
  else if c = cApos then ['&', 'a', 'p', 'o', 's', ';']
  else [c]

/-- Escape every character of a fault string (the router applies the
replacement to each occurrence via a global regex). -/
def xmlEscapeL (l : List Char) : List Char :=
  l.foldr (fun c acc => escChar c ++ acc) []

/-- String form of `xmlEscapeL`. -/
def xmlEscape (s : String) : String :=
  String.mk (xmlEscapeL s.data)

/-- Well-formedness checker and inverse of `xmlEscapeL`: parses an XML text
fragment, turning the five entities back into their characters and rejecting
(`none`) any raw `<` `>` `"` apostrophe or any `&` that does not start one of
the five entities. -/
def xmlUnescape : List Char → Option (List Char)
  | [] => some []
  | '&' :: 'l' :: 't' :: ';' :: r2 => (xmlUnescape r2).map (fun t => '<' :: t)
  | '&' :: 'g' :: 't' :: ';' :: r2 => (xmlUnescape r2).map (fun t => '>' :: t)
  | '&' :: 'a' :: 'm' :: 'p' :: ';' :: r2 => (xmlUnescape r2).map (fun t => '&' :: t)
  | '&' :: 'q' :: 'u' :: 'o' :: 't' :: ';' :: r2 => (xmlUnescape r2).map (fun t => cQuote :: t)
  | '&' :: 'a' :: 'p' :: 'o' :: 's' :: ';' :: r2 => (xmlUnescape r2).map (fun t => cApos :: t)
  | c :: r =>
      if c = '&' ∨ c = '<' ∨ c = '>' ∨ c = cQuote ∨ c = cApos then none
      else (xmlUnescape r).map (fun t => c :: t)

/- ## Router responses and the SOAP envelope

These embed `createSAMLIssuerRouter` (router source): each route handler
becomes a total function from the already-parsed request data and the
outcomes of the issuer calls to an abstract Express response.  `send` is
`res.status(...).send(...)` with an optional `res.set("Content-Type", ...)`;
`redirectTo` is `res.redirect(...)`; `nextError` is the `catch` handing the
error to `next(err)`; `delegatedAuth` is the call into the configured
`requireAuth` middleware. -/

/-- Abstract Express response emitted by a route handler. -/
inductive RouterResponse
  | send (status : Nat) (contentType : Option String) (body : String)
  | redirectTo (url : String)
  | nextError (msg : String)
  | delegatedAuth
  deriving DecidableEq, Repr

/-- The XML declaration line shared by all SOAP envelopes of the router. -/
def xmlDeclStr : String :=
  "<?xml version=\"1.0\" encoding=\"UTF-8\"?>"

/-- The exact SOAP fault envelope emitted by the `/singleLogoutSOAP` route
(both the empty-body `soap:Client` fault and the catch-all `soap:Server`
fault use this shape, byte for byte). -/
def soapFaultXml (code msg : String) : String :=
  xmlDeclStr ++
  "\n<soap:Envelope xmlns:soap=\"http://schemas.xmlsoap.org/soap/envelope/\">" ++
  "\n  <soap:Body>" ++
  "\n    <soap:Fault>" ++
  "\n      <faultcode>" ++ code ++ "</faultcode>" ++
  "\n      <faultstring>" ++ msg ++ "</faultstring>" ++
  "\n    </soap:Fault>" ++
  "\n  </soap:Body>" ++
  "\n</soap:Envelope>"

/-- A well-formed SOAP envelope: a success envelope wrapping a payload in a
SOAP Body, or one of the two fault envelopes. -/
inductive SoapXml
  | success (payload : String)
  | faultClient (msg : String)
  | faultServer (msg : String)
  deriving DecidableEq, Repr

/-- Rendering of a well-formed SOAP envelope.  The success shape is modelled
from the spec (`SoapEnvelope{xml}` wraps the payload in a SOAP Body); the two
fault shapes are the router's own, byte for byte. -/
def renderSoap : SoapXml → String
  | .success p =>
      xmlDeclStr ++
      "\n<soap:Envelope xmlns:soap=\"http://schemas.xmlsoap.org/soap/envelope/\">" ++
      "\n  <soap:Body>" ++ p ++ "</soap:Body>" ++
      "\n</soap:Envelope>"
  | .faultClient m => soapFaultXml "soap:Client" m
  | .faultServer m => soapFaultXml "soap:Server" m

/-- Modelled from the spec: the outcome of `SAMLIssuer.processSoapLogout`
(the issuer-engine module is absent from the provided sources, only its
router caller is).  Per §4.4 it always returns a well-formed SOAP envelope —
success or fault — and any unexpected toolkit exception escapes it as a
thrown error, which the route handler must catch. -/
inductive SoapOutcome
  | envelope (xml : SoapXml)
  | thrown (msg : String)

/-- The `POST /singleLogoutSOAP` route handler (router source): an empty or
missing body is answered immediately with the `soap:Client` fault and a 400
status, without calling the issuer; otherwise `processSoapLogout` is called
and its envelope sent with a 200 status; a thrown error is caught and
converted to a `soap:Server` fault with a 500 status and the message
XML-escaped.  Every path sets `Content-Type: text/xml`.  The correlator
state `σ` is threaded through the issuer call and returned. -/
def singleLogoutSOAPRoute {σ : Type} (body : String) (sessionId : Option String)
    (corr : σ)
    (soapLogout : String → Option String → σ → SoapOutcome × σ) :
    RouterResponse × σ :=
  if body.length = 0 then
    (.send 400 (some "text/xml") (soapFaultXml "soap:Client" "Empty SOAP body"), corr)
  else
    match soapLogout body sessionId corr with
    | (.envelope xml, corr2) =>
        (.send 200 (some "text/xml") (renderSoap xml), corr2)
    | (.thrown msg, corr2) =>
        (.send 500 (some "text/xml") (soapFaultXml "soap:Server" (xmlEscape msg)), corr2)

/- ## Server manager and metadata -/

/-- Trust material held by the Server Manager's active handle. -/
structure ServerHandle where
  entityId : String
  ssoRedirectUrl : String
  ssoPostUrl : String
  sloRedirectUrl : String
  sloSoapUrl : String
  signingCertificate : String
  deriving DecidableEq, Repr

/-- The error taxonomy of §7. -/
inductive SAMLError
  | malformedMessage
  | invalidRequest
  | unknownProvider
  | unknownBinding
  | notConfigured
  | toolkitFailure
  deriving DecidableEq, Repr

/-- Printable name of a `SAMLError`, used when a handler hands the error to
`next(err)`. -/
def samlErrorName : SAMLError → String
  | .malformedMessage => "MalformedMessage"
  | .invalidRequest => "InvalidRequest"
  | .unknownProvider => "UnknownProvider"
  | .unknownBinding => "UnknownBinding"
  | .notConfigured => "NotConfigured"
  | .toolkitFailure => "ToolkitFailure"

/-- Modelled from the spec: the IdP metadata XML rendered from the Server
Manager's configuration — entity ID, SSO/SLO endpoints per binding, signing
certificate (§4.4, the issuer-engine module is absent from the provided
sources). -/
def renderMetadata (h : ServerHandle) : String :=
  xmlDeclStr ++
  "\n<md:EntityDescriptor xmlns:md=\"urn:oasis:names:tc:SAML:2.0:metadata\" entityID=\"" ++
  h.entityId ++ "\">" ++
  "\n<md:IDPSSODescriptor>" ++
  "\n<md:KeyDescriptor use=\"signing\">" ++ h.signingCertificate ++ "</md:KeyDescriptor>" ++
  "\n<md:SingleSignOnService Binding=\"urn:oasis:names:tc:SAML:2.0:bindings:HTTP-Redirect\" Location=\"" ++
  h.ssoRedirectUrl ++ "\"/>" ++
  "\n<md:SingleSignOnService Binding=\"urn:oasis:names:tc:SAML:2.0:bindings:HTTP-POST\" Location=\"" ++
  h.ssoPostUrl ++ "\"/>" ++
  "\n<md:SingleLogoutService Binding=\"urn:oasis:names:tc:SAML:2.0:bindings:HTTP-Redirect\" Location=\"" ++
  h.sloRedirectUrl ++ "\"/>" ++
  "\n<md:SingleLogoutService Binding=\"urn:oasis:names:tc:SAML:2.0:bindings:SOAP\" Location=\"" ++
  h.sloSoapUrl ++ "\"/>" ++
  "\n</md:IDPSSODescriptor>" ++
  "\n</md:EntityDescriptor>"

/-- Modelled from the spec: `SAMLIssuer.getMetadata` (issuer-engine module
absent from the provided sources): a pure function of the Server Manager's
configuration — it reads nothing but its argument and mutates nothing — that
fails with `NotConfigured` when the Server Manager has no active handle. -/
def getMetadata (sm : Option ServerHandle) : Except SAMLError String :=
  match sm with
  | none => .error .notConfigured
  | some h => .ok (renderMetadata h)

/-- The `GET /metadata` route handler (router source): on success the
metadata XML is sent with `Content-Type: application/samlmetadata+xml`; a
failure is caught and answered with a bare 500. -/
def metadataRoute (sm : Option ServerHandle) : RouterResponse :=
  match getMetadata sm with
  | .ok xml => .send 200 (some "application/samlmetadata+xml") xml
  | .error _ => .send 500 none "Error generating metadata"

/- ## SSO context and the issuer's request-processing operations -/

/-- Ephemeral per-exchange context (§3 SSOContext). -/
structure SSOContext where
  spEntityId : String
  binding : SamlBinding
  isRequest : Bool
  rawMessage : List Nat
  deriving Repr

/-- Toolkit-level verification failure (the toolkit collaborator of §6). -/
inductive VerifyError
  | badSignature
  | unknownIssuer
  | expiredRequest
  | unknownServiceProvider
  deriving DecidableEq, Repr

/-- Typed issuer error for a toolkit verification failure (§7): signature,
issuer and freshness failures are `InvalidRequest`; a provider outside the
trust configuration is `UnknownProvider`. -/
def typedOfVerify : VerifyError → SAMLError
  | .badSignature => .invalidRequest
  | .unknownIssuer => .invalidRequest
  | .expiredRequest => .invalidRequest
  | .unknownServiceProvider => .unknownProvider

/-- Modelled from the spec: `SAMLIssuer.processAuthnRequest` (issuer-engine
module absent from the provided sources).  The request is decoded by the
binding codec; a decode failure becomes the typed result `MalformedMessage`;
the toolkit's signature/issuer verification — passed in as the collaborator
`verify` — has its failures mapped into the typed taxonomy; no failure is
thrown: every outcome is a value of the `Except` result. -/
def processAuthnRequest
    (verify : List Nat → Except VerifyError SSOContext)
    (w : WireRequest) : Except SAMLError SSOContext :=
  match decode w with
  | .error _ => .error .malformedMessage
  | .ok (b, msg) =>
      match verify msg with
      | .error ve => .error (typedOfVerify ve)
      | .ok ctx => .ok { ctx with binding := b, rawMessage := msg, isRequest := true }

/-- Modelled from the spec: `SAMLIssuer.processLogoutRequest` (issuer-engine
module absent from the provided sources).  Decodes and classifies the payload
as a LogoutRequest or a LogoutResponse; decode failures become the typed
result `MalformedMessage`, toolkit verification failures are mapped by
`typedOfVerify`; nothing is thrown. -/
def processLogoutRequest
    (verifyLogout : List Nat → Except VerifyError SSOContext)
    (w : WireRequest) : Except SAMLError SSOContext :=
  match decode w with
  | .error _ => .error .malformedMessage
  | .ok (b, msg) =>
      match verifyLogout msg with
      | .error ve => .error (typedOfVerify ve)
      | .ok ctx => .ok { ctx with binding := b, rawMessage := msg }

/- ## The `/singleSignOn` route handler -/

/-- JS truthiness of the session ID the router reads through
`config.getSessionId?.(req)`: absent accessor or `null` gives `undefined`,
and the empty string is falsy. -/
def sessionIdTruthy : Option String → Bool
  | none => false
  | some s => !s.isEmpty

/-- JS truthiness of an optional body string (`response.body`). -/
def bodyTruthy : Option String → Bool
  | none => false
  | some s => !s.isEmpty

/-- Shape of the send instruction the router receives from
`issuer.buildSAMLResponse` / `issuer.buildLogoutResponse` /
`issuer.initiateLogout`. -/
structure HttpInstr where
  method : String
  url : String
  body : Option String
  contentType : Option String
  deriving DecidableEq, Repr

/-- How the router's handlers deliver a send instruction (router source,
`/singleSignOn` and `/singleLogout`): a POST instruction with a truthy body
is sent as a page with its content type (default `text/html`); anything else
becomes a redirect to the instruction's URL. -/
def deliverInstr (r : HttpInstr) : RouterResponse :=
  if r.method = "POST" ∧ bodyTruthy r.body then
    .send 200 (some (r.contentType.getD "text/html")) (r.body.getD "")
  else
    .redirectTo r.url

/-- The session lookup the `/singleSignOn` handler performs: a truthy session
ID is passed to `config.getSessionData?.(sessionId)` when that accessor is
configured; any falsy step yields no session. -/
def lookupSession {ρ : Type} (sessionId : Option String)
    (getSessionData : Option (String → Option ρ)) : Option ρ :=
  match sessionId with
  | none => none
  | some sid =>
      if sid.isEmpty then none
      else
        match getSessionData with
        | none => none
        | some f => f sid

/-- The `GET/POST /singleSignOn` route handler (router source).  The returned
flag records whether `issuer.buildSAMLResponse` was invoked during the
exchange.  When the AuthnRequest was processed and the caller is
authenticated, the built response is delivered; otherwise the configured
`requireAuth` middleware is invoked, or — with none configured — a bare 401
`Authentication required` is sent.  A processing error is caught and handed
to `next(err)`. -/
def singleSignOnRoute {ρ : Type}
    (processResult : Except SAMLError SSOContext)
    (sessionId : Option String)
    (getSessionData : Option (String → Option ρ))
    (requireAuthConfigured : Bool)
    (buildSAMLResponse : SSOContext → ρ → String → HttpInstr) :
    RouterResponse × Bool :=
  match processResult with
  | .error e => (.nextError (samlErrorName e), false)
  | .ok ctx =>
      match lookupSession sessionId getSessionData with
      | some sess =>
          (deliverInstr (buildSAMLResponse ctx sess ((sessionId).getD "")), true)
      | none =>
          if requireAuthConfigured then (.delegatedAuth, false)
          else (.send 401 none "Authentication required", false)

/- ## SSO Session Correlator and the SLO walk

The correlator module is absent from the provided sources; it is modelled
from the specification §4.3 as a keyed store: local session ID → ordered list
of ProviderSession records, plus local session ID → the FIFO queue of the
session's in-progress logout walk. -/

/-- One SP the local session has SSO'd into (§3 ProviderSession). -/
structure ProviderSession where
  spEntityId : String
  nameId : String
  nameIdFormat : String
  sessionIndex : String
  deriving DecidableEq, Repr

/-- Association-list lookup by key. -/
def lookupA {α : Type} (l : List (String × α)) (k : String) : Option α :=
  (l.find? (fun kv => kv.1 == k)).map (fun kv => kv.2)

/-- Association-list upsert: replace the value at an existing key in place,
otherwise append the new entry. -/
def upsertA {α : Type} : List (String × α) → String → α → List (String × α)
  | [], k, v => [(k, v)]
  | kv :: r, k, v => if kv.1 == k then (k, v) :: r else kv :: upsertA r k v

/-- Modelled from the spec: the idempotent upsert at the heart of
`recordProviderSession` (§4.3) — a ProviderSession for an SP already present
replaces the prior entry in place (keeping its recording position), a new SP
is appended, preserving FIFO recording order. -/
def upsertPS : List ProviderSession → ProviderSession → List ProviderSession
  | [], p => [p]
  | q :: r, p => if q.spEntityId == p.spEntityId then p :: r else q :: upsertPS r p

/-- Correlator state: ProviderSessions and in-progress logout walks, both
keyed by local session ID. -/
structure SloState where
  sessions : List (String × List ProviderSession)
  walks : List (String × List ProviderSession)
  deriving Repr

/-- The correlator before any exchange. -/
def emptySlo : SloState := ⟨[], []⟩

/-- The ProviderSessions recorded for a local session, in recording order. -/
def sessionsOf (st : SloState) (sid : String) : List ProviderSession :=
  (lookupA st.sessions sid).getD []

/-- Modelled from the spec:
`recordProviderSession(localSessionId, spEntityId, nameId, sessionIndex)`
(§4.3, correlator module absent from the provided sources): an idempotent
upsert into the session's ProviderSession list. -/
def recordProviderSession (st : SloState) (sid : String) (p : ProviderSession) : SloState :=
  { st with sessions := upsertA st.sessions sid (upsertPS (sessionsOf st sid) p) }

/-- Modelled from the spec: `startLogoutWalk(localSessionId, originatingSp?)`
(§4.3): snapshots the session's ProviderSessions — without the originating
SP, which already knows it is logged out — into a FIFO queue. -/
def startLogoutWalk (st : SloState) (sid : String) (origin : Option String) : SloState :=
  let ps := sessionsOf st sid
  let walk :=
    match origin with
    | some sp => ps.filter (fun q => q.spEntityId ≠ sp)
    | none => ps
  { st with walks := upsertA st.walks sid walk }

/-- The active walk of a local session, `none` when no walk exists. -/
def walkOf (st : SloState) (sid : String) : Option (List ProviderSession) :=
  lookupA st.walks sid

/-- A LogoutRequest send-instruction: the signed message the issuer builds
for one SP of the walk (only the addressing matters here). -/
structure LogoutRequestInstr where
  toSp : String
  nameId : String
  sessionIndex : String
  deriving DecidableEq, Repr

/-- The LogoutRequest built for one ProviderSession. -/
def mkLogoutRequest (p : ProviderSession) : LogoutRequestInstr :=
  ⟨p.spEntityId, p.nameId, p.sessionIndex⟩

/-- Modelled from the spec: `initiateLogout(sessionId)` (§4.4, issuer-engine
module absent from the provided sources): pops the next unvisited
ProviderSession of the session's active walk in enqueue order and builds a
LogoutRequest to it; with no active walk, or an exhausted one, it is a no-op
returning `None` — never an error (§4.4 failure semantics). -/
def initiateLogout (st : SloState) (sid : String) : Option LogoutRequestInstr × SloState :=
  match walkOf st sid with
  | none => (none, st)
  | some [] => (none, st)
  | some (p :: rest) =>
      (some (mkLogoutRequest p), { st with walks := upsertA st.walks sid rest })

/-- The results of `n` successive `initiateLogout` calls for one session,
each call acting on the state the previous call returned. -/
def initiateLogoutTrace (st : SloState) (sid : String) : Nat → List (Option LogoutRequestInstr)
  | 0 => []
  | n + 1 =>
      let r := initiateLogout st sid
      r.1 :: initiateLogoutTrace r.2 sid n

/-- A correlator mutation, for stating invariants over every reachable
correlator state. -/
inductive CorrCall
  | record (sid : String) (p : ProviderSession)

/-- Apply one correlator call. -/
def applyCall (st : SloState) : CorrCall → SloState
  | .record sid p => recordProviderSession st sid p

/-- Apply a sequence of correlator calls in order. -/
def applyCalls (st : SloState) (cs : List CorrCall) : SloState :=
  cs.foldl applyCall st

/- ## The lasso.js module loader

From `packages/lib-saml/src/lasso-loader.ts`.  The two module-level mutable
variables `lassoModule` and `loadError` become an explicit state; the dynamic
`import`/`require` of `lasso.js` is an external effect whose hypothetical
outcome (`env`) is an input of each call that might attempt it, and a flag
records whether the call actually performed the import. -/

/-- The loader's module-level state: the cached module (identified by an
opaque handle) and the cached load failure. -/
structure LassoState where
  lassoModule : Option Nat
  loadError : Option String
  deriving DecidableEq, Repr

/-- State at process start: nothing cached. -/
def initialLassoState : LassoState := ⟨none, none⟩

/-- What the underlying `import("lasso.js")` / `require("lasso.js")` would do
if attempted now. -/
inductive ImportOutcome
  | ok (m : Nat)
  | threw (e : String)
  deriving DecidableEq, Repr

/-- A call into the loader's public surface. -/
inductive LassoCall
  | loadLasso (env : ImportOutcome)
  | tryLoadLassoSync (env : ImportOutcome)
  | getLasso
  | isLassoLoaded

/-- Result of a loader call: a returned module, a thrown
`LassoNotAvailableError` (carrying the original error message it reports), or
a returned boolean. -/
inductive LassoRet
  | module (m : Nat)
  | notAvailable (orig : String)
  | bool (b : Bool)
  deriving DecidableEq, Repr

/-- One loader call (lasso-loader source, lines 64–118): the returned value,
the successor state, and whether the underlying import was performed. -/
def stepLasso (st : LassoState) : LassoCall → LassoRet × LassoState × Bool
  | .loadLasso env =>
      match st.lassoModule with
      | some m => (.module m, st, false)
      | none =>
          match st.loadError with
          | some e => (.notAvailable e, st, false)
          | none =>
              match env with
              | .ok m => (.module m, { st with lassoModule := some m }, true)
              | .threw e => (.notAvailable e, { st with loadError := some e }, true)
  | .tryLoadLassoSync env =>
      match st.lassoModule with
      | some _ => (.bool true, st, false)
      | none =>
          match st.loadError with
          | some _ => (.bool false, st, false)
          | none =>
              match env with
              | .ok m => (.bool true, { st with lassoModule := some m }, true)
              | .threw e => (.bool false, { st with loadError := some e }, true)
  | .getLasso =>
      match st.lassoModule with
      | some m => (.module m, st, false)
      | none =>
          (.notAvailable (st.loadError.getD "Lasso not loaded. Call loadLasso() first."),
           st, false)
  | .isLassoLoaded => (.bool st.lassoModule.isSome, st, false)

/-- Run a sequence of loader calls: the returned values, the final state and
how many underlying imports were performed. -/
def runLasso : LassoState → List LassoCall → List LassoRet × LassoState × Nat
  | st, [] => ([], st, 0)
  | st, c :: cs =>
      let r := stepLasso st c
      let rest := runLasso r.2.1 cs
      (r.1 :: rest.1, rest.2.1, (if r.2.2 then 1 else 0) + rest.2.2)

/- ## Theorems -/

/- ### Base64 -/

theorem sextetOfChar_charOfSextet :
    ∀ n : Fin 64,
      sextetOfChar (charOfSextet n.val) = some n.val ∧ charOfSextet n.val ≠ b64Pad := by
  decide

theorem sextet_inv {n : Nat} (h : n < 64) :
    sextetOfChar (charOfSextet n) = some n :=
  (sextetOfChar_charOfSextet ⟨n, h⟩).1

theorem charOfSextet_ne_pad {n : Nat} (h : n < 64) :
    charOfSextet n ≠ b64Pad :=
  (sextetOfChar_charOfSextet ⟨n, h⟩).2

theorem base64_roundtrip :
    ∀ l : List Nat, (∀ b ∈ l, b < 256) → base64Decode (base64Encode l) = some l := by
  intro l
  induction l using base64Encode.induct with
  | case1 =>
      intro _
      simp [base64Encode, base64Decode]
  | case2 b1 =>
      intro hb
      have h1 : b1 < 256 := hb b1 (by simp)
      have e1 : b1 / 4 < 64 := by omega
      have e2 : b1 % 4 * 16 < 64 := by omega
      simp only [base64Encode, base64Decode, sextet_inv e1, sextet_inv e2,
        Option.bind_eq_bind, Option.some_bind, Option.pure_def]
      split_ifs with hc hc2
      · simp only [Option.some.injEq, List.cons.injEq, and_true]
        omega
      · exact absurd ⟨trivial, trivial, trivial⟩ hc
      · exact absurd ⟨trivial, trivial, trivial⟩ hc
  | case3 b1 b2 =>
      intro hb
      have h1 : b1 < 256 := hb b1 (by simp)
      have h2 : b2 < 256 := hb b2 (by simp)
      have e1 : b1 / 4 < 64 := by omega
      have e2 : b1 % 4 * 16 + b2 / 16 < 64 := by omega
      have e3 : b2 % 16 * 4 < 64 := by omega
      simp only [base64Encode, base64Decode, sextet_inv e1, sextet_inv e2, sextet_inv e3,
        Option.bind_eq_bind, Option.some_bind, Option.pure_def]
      split_ifs with hc1 hc2
      · exact absurd hc1.1 (charOfSextet_ne_pad e3)
      · simp only [Option.some.injEq, List.cons.injEq, and_true]
        constructor
        · omega
        · omega
      · exact absurd ⟨trivial, trivial⟩ hc2
  | case4 b1 b2 b3 rest ih =>
      intro hb
      have h1 : b1 < 256 := hb b1 (by simp)
      have h2 : b2 < 256 := hb b2 (by simp)
      have h3 : b3 < 256 := hb b3 (by simp)
      have e1 : b1 / 4 < 64 := by omega
      have e2 : b1 % 4 * 16 + b2 / 16 < 64 := by omega
      have e3 : b2 % 16 * 4 + b3 / 64 < 64 := by omega
      have e4 : b3 % 64 < 64 := by omega
      have hrest : base64Decode (base64Encode rest) = some rest :=
        ih (fun b hbmem => hb b (by simp [hbmem]))
      simp only [base64Encode, base64Decode, sextet_inv e1, sextet_inv e2, sextet_inv e3,
        sextet_inv e4, hrest, Option.bind_eq_bind, Option.some_bind, Option.pure_def]
      split_ifs with hc1 hc2
      · exact absurd hc1.1 (charOfSextet_ne_pad e3)
      · exact absurd hc2.1 (charOfSextet_ne_pad e4)
      · simp only [Option.some.injEq, List.cons.injEq, and_true]
        refine ⟨by omega, by omega, by omega⟩

/- ### Association lists -/

theorem lookupA_upsertA_self {α : Type} (l : List (String × α)) (k : String) (v : α) :
    lookupA (upsertA l k v) k = some v := by
  induction l with
  | nil => simp [upsertA, lookupA, List.find?]
  | cons kv r ih =>
      by_cases h : kv.1 == k
      · simp [upsertA, h, lookupA, List.find?]
      · simp only [upsertA, h, if_false, Bool.false_eq_true]
        simp only [lookupA, List.find?, h] at ih ⊢
        exact ih

theorem lookupA_upsertA_ne {α : Type} (l : List (String × α)) (k k2 : String) (v : α)
    (h : k2 ≠ k) : lookupA (upsertA l k v) k2 = lookupA l k2 := by
  induction l with
  | nil =>
      simp only [upsertA, lookupA, List.find?]
      have : ((k, v).1 == k2) = false := by
        simp only [beq_eq_false_iff_ne, ne_eq]
        exact fun hk => h hk.symm
      simp [this]
  | cons kv r ih =>
      by_cases hk : kv.1 == k
      · have hkv : (kv.1 == k2) = false := by
          simp only [beq_eq_false_iff_ne, ne_eq]
          intro hx
          exact h (hx ▸ (beq_iff_eq.mp hk))
        have hkk2 : ((k, v).1 == k2) = false := by
          simp only [beq_eq_false_iff_ne, ne_eq]
          exact fun hx => h hx.symm
        simp [upsertA, hk, lookupA, List.find?, hkv, hkk2]
      · simp only [upsertA, hk, if_false, Bool.false_eq_true]
        by_cases h2 : kv.1 == k2
        · simp [lookupA, List.find?, h2]
        · simp only [lookupA, List.find?, h2, Bool.false_eq_true, if_false] at ih ⊢
          exact ih

/- ### ProviderSession upsert -/

theorem map_sp_mem_upsertPS (l : List ProviderSession) (p : ProviderSession) (x : String)
    (h : x ∈ (upsertPS l p).map ProviderSession.spEntityId) :
    x ∈ l.map ProviderSession.spEntityId ∨ x = p.spEntityId := by
  induction l with
  | nil =>
      simp only [upsertPS, List.map_cons, List.map_nil, List.mem_singleton] at h
      exact Or.inr h
  | cons q r ih =>
      by_cases hq : q.spEntityId == p.spEntityId
      · simp only [upsertPS, hq, if_true, List.map_cons, List.mem_cons] at h
        rcases h with h | h
        · exact Or.inr h
        · exact Or.inl (List.mem_cons_of_mem _ h)
      · simp only [upsertPS, hq, Bool.false_eq_true, if_false, List.map_cons,
          List.mem_cons] at h
        rcases h with h | h
        · exact Or.inl (by simp [h])
        · rcases ih h with h2 | h2
          · exact Or.inl (List.mem_cons_of_mem _ h2)
          · exact Or.inr h2

theorem nodup_upsertPS (l : List ProviderSession) (p : ProviderSession)
    (h : (l.map ProviderSession.spEntityId).Nodup) :
    ((upsertPS l p).map ProviderSession.spEntityId).Nodup := by
  induction l with
  | nil => simp [upsertPS]
  | cons q r ih =>
      simp only [List.map_cons, List.nodup_cons] at h
      by_cases hq : q.spEntityId == p.spEntityId
      · have hqe : q.spEntityId = p.spEntityId := beq_iff_eq.mp hq
        simp only [upsertPS, hq, if_true, List.map_cons, List.nodup_cons]
        exact ⟨hqe ▸ h.1, h.2⟩
      · simp only [upsertPS, hq, Bool.false_eq_true, if_false, List.map_cons,
          List.nodup_cons]
        refine ⟨fun hmem => ?_, ih h.2⟩
        rcases map_sp_mem_upsertPS r p q.spEntityId hmem with h2 | h2
        · exact h.1 h2
        · exact absurd (beq_iff_eq.mpr h2) (by simpa using hq)

theorem upsertPS_replaces (l : List ProviderSession) (p : ProviderSession)
    (h : p.spEntityId ∈ l.map ProviderSession.spEntityId) :
    (upsertPS l p).length = l.length
    ∧ (upsertPS l p).map ProviderSession.spEntityId = l.map ProviderSession.spEntityId
    ∧ p ∈ upsertPS l p := by
  induction l with
  | nil => simp at h
  | cons q r ih =>
      by_cases hq : q.spEntityId == p.spEntityId
      · have hqe : q.spEntityId = p.spEntityId := beq_iff_eq.mp hq
        simp only [upsertPS, hq, if_true]
        exact ⟨by simp, by simp [hqe], List.mem_cons_self _ _⟩
      · simp only [List.map_cons, List.mem_cons] at h
        rcases h with h | h
        · exact absurd (beq_iff_eq.mpr h.symm) (by simpa using hq)
        · rcases ih h with ⟨h1, h2, h3⟩
          simp only [upsertPS, hq, Bool.false_eq_true, if_false]
          exact ⟨by simp [h1], by simp [h2], List.mem_cons_of_mem _ h3⟩

/- ### Correlator invariant -/

/-- The correlator never holds two ProviderSession entries for the same
(localSessionId, spEntityId) pair. -/
def corrInv (st : SloState) : Prop :=
  ∀ sid, ((sessionsOf st sid).map ProviderSession.spEntityId).Nodup

theorem corrInv_empty : corrInv emptySlo := by
  intro sid
  simp [sessionsOf, emptySlo, lookupA]

theorem sessionsOf_record_self (st : SloState) (sid : String) (p : ProviderSession) :
    sessionsOf (recordProviderSession st sid p) sid = upsertPS (sessionsOf st sid) p := by
  simp [sessionsOf, recordProviderSession, lookupA_upsertA_self]

theorem sessionsOf_record_ne (st : SloState) (sid sid2 : String) (p : ProviderSession)
    (h : sid2 ≠ sid) :
    sessionsOf (recordProviderSession st sid p) sid2 = sessionsOf st sid2 := by
  simp [sessionsOf, recordProviderSession, lookupA_upsertA_ne _ _ _ _ h]

theorem corrInv_record (st : SloState) (sid : String) (p : ProviderSession)
    (h : corrInv st) : corrInv (recordProviderSession st sid p) := by
  intro sid2
  by_cases hs : sid2 = sid
  · subst hs
    rw [sessionsOf_record_self]
    exact nodup_upsertPS _ _ (h sid2)
  · rw [sessionsOf_record_ne _ _ _ _ hs]
    exact h sid2

theorem corrInv_applyCalls_aux :
    ∀ (cs : List CorrCall) (st : SloState), corrInv st → corrInv (applyCalls st cs) := by
  intro cs
  induction cs with
  | nil => intro st h; exact h
  | cons c cs ih =>
      intro st h
      have : applyCalls st (c :: cs) = applyCalls (applyCall st c) cs := rfl
      rw [this]
      apply ih
      cases c with
      | record sid p => exact corrInv_record st sid p h

theorem corrInv_applyCalls (cs : List CorrCall) : corrInv (applyCalls emptySlo cs) :=
  corrInv_applyCalls_aux cs emptySlo corrInv_empty

/- ### SLO walk traces -/

theorem initiateLogout_no_walk (st : SloState) (sid : String)
    (h : walkOf st sid = none) : initiateLogout st sid = (none, st) := by
  simp [initiateLogout, h]

theorem trace_exhausted (st : SloState) (sid : String)
    (h : walkOf st sid = some []) :
    ∀ k, initiateLogoutTrace st sid k = List.replicate k none := by
  intro k
  induction k with
  | zero => rfl
  | succ k ih =>
      simp [initiateLogoutTrace, initiateLogout, h, ih, List.replicate]

theorem trace_walk (ws : List ProviderSession) :
    ∀ (st : SloState) (sid : String) (k : Nat), walkOf st sid = some ws →
      initiateLogoutTrace st sid (ws.length + k) =
        ws.map (fun p => some (mkLogoutRequest p)) ++ List.replicate k none := by
  induction ws with
  | nil =>
      intro st sid k h
      simpa using trace_exhausted st sid h k
  | cons p rest ih =>
      intro st sid k h
      have hlen : (p :: rest).length + k = (rest.length + k) + 1 := by
        simp [List.length_cons]
        omega
      rw [hlen]
      have hstep : initiateLogout st sid =
          (some (mkLogoutRequest p), { st with walks := upsertA st.walks sid rest }) := by
        simp [initiateLogout, h]
      have hw2 : walkOf { st with walks := upsertA st.walks sid rest } sid = some rest := by
        simp [walkOf, lookupA_upsertA_self]
      simp only [initiateLogoutTrace, hstep]
      rw [ih _ sid k hw2]
      simp

/- ### Claim theorems -/

/-- C1: for a local session whose ProviderSessions were recorded by any
sequence of `recordProviderSession` calls, starting an IdP-initiated logout
walk and then calling `initiateLogout` repeatedly yields exactly one
LogoutRequest send-instruction per recorded ProviderSession, in FIFO
recording order, each addressed to a distinct SP; every call after the last
provider returns `none`; and a call with no active walk at all is a no-op
returning `none` with the state unchanged — never an error. -/
theorem slo_fanout_c1 (cs : List CorrCall) (sid : String) (k : Nat) :
    (initiateLogoutTrace (startLogoutWalk (applyCalls emptySlo cs) sid none) sid
        ((sessionsOf (applyCalls emptySlo cs) sid).length + k)
      = (sessionsOf (applyCalls emptySlo cs) sid).map (fun p => some (mkLogoutRequest p))
        ++ List.replicate k none)
    ∧ ((sessionsOf (applyCalls emptySlo cs) sid).map
        (fun p => (mkLogoutRequest p).toSp)).Nodup
    ∧ (∀ (st : SloState) (s : String),
        walkOf st s = none → initiateLogout st s = (none, st)) := by
  refine ⟨?_, ?_, initiateLogout_no_walk⟩
  · apply trace_walk
    simp [startLogoutWalk, walkOf, lookupA_upsertA_self]
  · simpa [mkLogoutRequest] using corrInv_applyCalls cs sid

theorem slo_fanout_c1_witness :
    walkOf emptySlo "s1" = none ∧ initiateLogout emptySlo "s1" = (none, emptySlo) :=
  ⟨rfl, (slo_fanout_c1 [] "s1" 0).2.2 emptySlo "s1" rfl⟩

/-- C7: after any sequence of `recordProviderSession` calls the correlator
never holds two ProviderSession entries for the same
(localSessionId, spEntityId) pair; recording a pair that is already present
replaces the prior entry — same number of entries, same SP list, the new
NameID/session-index record present — instead of adding one; and every
logout walk snapshot therefore contains each provider at most once. -/
theorem correlator_upsert_c7 :
    (∀ (cs : List CorrCall) (sid : String),
      ((sessionsOf (applyCalls emptySlo cs) sid).map ProviderSession.spEntityId).Nodup)
    ∧ (∀ (l : List ProviderSession) (p : ProviderSession),
        p.spEntityId ∈ l.map ProviderSession.spEntityId →
          (upsertPS l p).length = l.length
          ∧ (upsertPS l p).map ProviderSession.spEntityId = l.map ProviderSession.spEntityId
          ∧ p ∈ upsertPS l p)
    ∧ (∀ (cs : List CorrCall) (sid : String) (origin : Option String),
        ∃ ws, walkOf (startLogoutWalk (applyCalls emptySlo cs) sid origin) sid = some ws
          ∧ (ws.map ProviderSession.spEntityId).Nodup) := by
  refine ⟨fun cs sid => corrInv_applyCalls cs sid, upsertPS_replaces, ?_⟩
  intro cs sid origin
  cases origin with
  | none =>
      refine ⟨sessionsOf (applyCalls emptySlo cs) sid, ?_, corrInv_applyCalls cs sid⟩
      simp [startLogoutWalk, walkOf, lookupA_upsertA_self]
  | some sp =>
      refine ⟨(sessionsOf (applyCalls emptySlo cs) sid).filter (fun q => q.spEntityId ≠ sp),
        ?_, ?_⟩
      · simp [startLogoutWalk, walkOf, lookupA_upsertA_self]
      · exact ((List.filter_sublist _).map ProviderSession.spEntityId).nodup
          (corrInv_applyCalls cs sid)

theorem correlator_upsert_c7_witness :
    (upsertPS [⟨"sp1", "n1", "f1", "i1"⟩] ⟨"sp1", "n2", "f1", "i2"⟩).length
        = [(⟨"sp1", "n1", "f1", "i1"⟩ : ProviderSession)].length
    ∧ (upsertPS [⟨"sp1", "n1", "f1", "i1"⟩] ⟨"sp1", "n2", "f1", "i2"⟩).map
          ProviderSession.spEntityId
        = [(⟨"sp1", "n1", "f1", "i1"⟩ : ProviderSession)].map ProviderSession.spEntityId
    ∧ (⟨"sp1", "n2", "f1", "i2"⟩ : ProviderSession)
        ∈ upsertPS [⟨"sp1", "n1", "f1", "i1"⟩] ⟨"sp1", "n2", "f1", "i2"⟩ :=
  correlator_upsert_c7.2.1 [⟨"sp1", "n1", "f1", "i1"⟩] ⟨"sp1", "n2", "f1", "i2"⟩
    (by decide)

/- ### Lasso loader -/

/-- A loader state that has settled: a cached module or a cached failure. -/
def lassoSettled (st : LassoState) : Prop :=
  st.lassoModule ≠ none ∨ st.loadError ≠ none

theorem stepLasso_settled (st : LassoState) (c : LassoCall) (h : lassoSettled st) :
    (stepLasso st c).2 = (st, false) := by
  rcases st with ⟨m, e⟩
  cases c <;> cases m <;> cases e <;> simp_all [stepLasso, lassoSettled]

theorem stepLasso_import_settles (st : LassoState) (c : LassoCall)
    (h : (stepLasso st c).2.2 = true) : lassoSettled (stepLasso st c).2.1 := by
  rcases st with ⟨m, e⟩
  cases c with
  | loadLasso env =>
      cases m <;> cases e <;> cases env <;> simp_all [stepLasso, lassoSettled]
  | tryLoadLassoSync env =>
      cases m <;> cases e <;> cases env <;> simp_all [stepLasso, lassoSettled]
  | getLasso => cases m <;> simp_all [stepLasso]
  | isLassoLoaded => simp_all [stepLasso]

theorem runLasso_settled_zero (cs : List LassoCall) :
    ∀ st : LassoState, lassoSettled st → (runLasso st cs).2.2 = 0 := by
  induction cs with
  | nil => intro st _; rfl
  | cons c cs ih =>
      intro st h
      have hstep := stepLasso_settled st c h
      have h1 : (stepLasso st c).2.2 = false := by rw [hstep]
      have h2 : (stepLasso st c).2.1 = st := by rw [hstep]
      simp only [runLasso, h1, h2]
      simp [ih st h]

theorem runLasso_import_le_one (cs : List LassoCall) :
    ∀ st : LassoState, (runLasso st cs).2.2 ≤ 1 := by
  induction cs with
  | nil => intro st; simp [runLasso]
  | cons c cs ih =>
      intro st
      by_cases h : (stepLasso st c).2.2 = true
      · have hz := runLasso_settled_zero cs _ (stepLasso_import_settles st c h)
        simp only [runLasso, h, hz]
        simp
      · simp only [runLasso, h]
        simpa using ih (stepLasso st c).2.1

/-- C9: the lasso.js loader performs at most one underlying import per
process and caches the outcome permanently.  Over any call sequence from the
initial state at most one import happens; in a state with a cached module
`m`, `loadLasso` and `getLasso` return exactly that module, `isLassoLoaded`
is true, and nothing is re-imported; in a state with a cached failure,
`loadLasso` throws `LassoNotAvailableError` and `tryLoadLassoSync` returns
false without attempting the import, whatever the import would now do
(`env` is arbitrary — in particular `.ok m`, the module having since become
installable). -/
theorem lasso_loader_c9 :
    (∀ cs : List LassoCall, (runLasso initialLassoState cs).2.2 ≤ 1)
    ∧ (∀ (st : LassoState) (m : Nat) (env : ImportOutcome),
        st.lassoModule = some m →
          stepLasso st (.loadLasso env) = (.module m, st, false)
          ∧ stepLasso st .getLasso = (.module m, st, false)
          ∧ stepLasso st (.tryLoadLassoSync env) = (.bool true, st, false)
          ∧ stepLasso st .isLassoLoaded = (.bool true, st, false))
    ∧ (∀ (st : LassoState) (e : String) (env : ImportOutcome),
        st.lassoModule = none → st.loadError = some e →
          stepLasso st (.loadLasso env) = (.notAvailable e, st, false)
          ∧ stepLasso st (.tryLoadLassoSync env) = (.bool false, st, false)) := by
  refine ⟨fun cs => runLasso_import_le_one cs _, ?_, ?_⟩
  · intro st m env h
    rcases st with ⟨ml, er⟩
    simp only at h
    subst h
    exact ⟨rfl, rfl, rfl, rfl⟩
  · intro st e env h1 h2
    rcases st with ⟨ml, er⟩
    simp only at h1 h2
    subst h1
    subst h2
    exact ⟨rfl, rfl⟩

theorem lasso_loader_c9_witness :
    (runLasso initialLassoState
        [.loadLasso (.threw "no liblasso"), .loadLasso (.ok 7),
         .tryLoadLassoSync (.ok 7)]).2.2 ≤ 1
    ∧ stepLasso ⟨some 5, none⟩ (.loadLasso (.ok 7)) = (.module 5, ⟨some 5, none⟩, false)
    ∧ stepLasso ⟨none, some "err"⟩ (.loadLasso (.ok 7))
        = (.notAvailable "err", ⟨none, some "err"⟩, false) :=
  ⟨lasso_loader_c9.1 _,
   (lasso_loader_c9.2.1 ⟨some 5, none⟩ 5 (.ok 7) rfl).1,
   (lasso_loader_c9.2.2 ⟨none, some "err"⟩ "err" (.ok 7) rfl rfl).1⟩

/- ### XML escaping round-trip -/

set_option maxHeartbeats 1000000 in
theorem xmlUnescape_plain (c : Char) (r : List Char)
    (h1 : c ≠ '&') (h2 : c ≠ '<') (h3 : c ≠ '>') (h4 : c ≠ cQuote) (h5 : c ≠ cApos) :
    xmlUnescape (c :: r) = (xmlUnescape r).map (fun t => c :: t) := by
  rw [xmlUnescape.eq_def]
  split <;> simp_all

theorem xmlEscape_roundtrip (l : List Char) : xmlUnescape (xmlEscapeL l) = some l := by
  induction l with
  | nil => rfl
  | cons c t ih =>
      have hstep : xmlEscapeL (c :: t) = escChar c ++ xmlEscapeL t := rfl
      rw [hstep]
      by_cases h1 : c = '<'
      · subst h1
        rw [show escChar '<' = ['&', 'l', 't', ';'] from rfl, List.cons_append,
          List.cons_append, List.cons_append, List.cons_append, List.nil_append]
        rw [show xmlUnescape ('&' :: 'l' :: 't' :: ';' :: xmlEscapeL t)
            = (xmlUnescape (xmlEscapeL t)).map (fun x => '<' :: x) from rfl, ih]
        rfl
      by_cases h2 : c = '>'
      · subst h2
        rw [show escChar '>' = ['&', 'g', 't', ';'] from rfl, List.cons_append,
          List.cons_append, List.cons_append, List.cons_append, List.nil_append]
        rw [show xmlUnescape ('&' :: 'g' :: 't' :: ';' :: xmlEscapeL t)
            = (xmlUnescape (xmlEscapeL t)).map (fun x => '>' :: x) from rfl, ih]
        rfl
      by_cases h3 : c = '&'
      · subst h3
        rw [show escChar '&' = ['&', 'a', 'm', 'p', ';'] from rfl, List.cons_append,
          List.cons_append, List.cons_append, List.cons_append, List.cons_append,
          List.nil_append]
        rw [show xmlUnescape ('&' :: 'a' :: 'm' :: 'p' :: ';' :: xmlEscapeL t)
            = (xmlUnescape (xmlEscapeL t)).map (fun x => '&' :: x) from rfl, ih]
        rfl
      by_cases h4 : c = cQuote
      · subst h4
        rw [show escChar cQuote = ['&', 'q', 'u', 'o', 't', ';'] from by
          rw [escChar.eq_def]
          rw [if_neg (by decide), if_neg (by decide), if_neg (by decide), if_pos rfl]]
        rw [List.cons_append, List.cons_append, List.cons_append, List.cons_append,
          List.cons_append, List.cons_append, List.nil_append]
        rw [show xmlUnescape ('&' :: 'q' :: 'u' :: 'o' :: 't' :: ';' :: xmlEscapeL t)
            = (xmlUnescape (xmlEscapeL t)).map (fun x => cQuote :: x) from rfl, ih]
        rfl
      by_cases h5 : c = cApos
      · subst h5
        rw [show escChar cApos = ['&', 'a', 'p', 'o', 's', ';'] from by
          rw [escChar.eq_def]
          rw [if_neg (by decide), if_neg (by decide), if_neg (by decide),
            if_neg (by decide), if_pos rfl]]
        rw [List.cons_append, List.cons_append, List.cons_append, List.cons_append,
          List.cons_append, List.cons_append, List.nil_append]
        rw [show xmlUnescape ('&' :: 'a' :: 'p' :: 'o' :: 's' :: ';' :: xmlEscapeL t)
            = (xmlUnescape (xmlEscapeL t)).map (fun x => cApos :: x) from rfl, ih]
        rfl
      · have he : escChar c = [c] := by simp [escChar, h1, h2, h3, h4, h5]
        rw [he, List.singleton_append, xmlUnescape_plain c _ h3 h1 h2 h4 h5, ih]
        rfl

/- ### SOAP endpoint claims -/

/-- C4: a request to the SOAP logout endpoint whose body is empty (the
router coerces a missing body to an empty string at the parsed-request
boundary) is answered with exactly the documented `soap:Client` fault
envelope, a 400 status and Content-Type `text/xml`; the correlator state is
returned untouched and the issuer is never consulted. -/
theorem soap_empty_body_c4 {σ : Type} (sessionId : Option String) (corr : σ)
    (soapLogout : String → Option String → σ → SoapOutcome × σ) :
    singleLogoutSOAPRoute "" sessionId corr soapLogout
      = (.send 400 (some "text/xml")
          (soapFaultXml "soap:Client" "Empty SOAP body"), corr) := rfl

/-- C2: every `/singleLogoutSOAP` exchange — empty body, issuer success, or
an issuer/toolkit error thrown past `processSoapLogout` — produces a `send`
response with Content-Type `text/xml` whose body renders a well-formed SOAP
envelope (success or fault); never a redirect, an HTML page or a delegation,
and the handler is a total function of its inputs: the thrown case is
consumed into a fault, so no exception escapes the request handler. -/
theorem soap_always_envelope_c2 {σ : Type} (body : String) (sessionId : Option String)
    (corr : σ) (soapLogout : String → Option String → σ → SoapOutcome × σ) :
    ∃ (status : Nat) (x : SoapXml),
      (singleLogoutSOAPRoute body sessionId corr soapLogout).1
        = .send status (some "text/xml") (renderSoap x) := by
  unfold singleLogoutSOAPRoute
  by_cases h : body.length = 0
  · rw [if_pos h]
    exact ⟨400, .faultClient "Empty SOAP body", rfl⟩
  · rw [if_neg h]
    rcases hso : soapLogout body sessionId corr with ⟨out, corr2⟩
    cases out with
    | envelope x => exact ⟨200, x, rfl⟩
    | thrown msg => exact ⟨500, .faultServer (xmlEscape msg), rfl⟩

/-- C5: the router's SOAP fault encoding escapes every occurrence of the
five characters `<` `>` `&` `"` `'` in the fault message — witnessed by the
strict scanner `xmlUnescape`, which rejects any raw special character or any
`&` not starting one of the five entities and recovers the original message
exactly — and the faultcode the router emits is `soap:Client` precisely on
the empty/missing-body path and `soap:Server` precisely on the caught
internal-error path (the issuer's own envelope is passed through verbatim on
the remaining path). -/
theorem soap_fault_encoding_c5 :
    (∀ l : List Char, xmlUnescape (xmlEscapeL l) = some l)
    ∧ (∀ (σ : Type) (sessionId : Option String) (corr : σ)
        (soapLogout : String → Option String → σ → SoapOutcome × σ),
        singleLogoutSOAPRoute "" sessionId corr soapLogout
          = (.send 400 (some "text/xml")
              (soapFaultXml "soap:Client" "Empty SOAP body"), corr))
    ∧ (∀ (σ : Type) (body : String) (sessionId : Option String) (corr corr2 : σ)
        (soapLogout : String → Option String → σ → SoapOutcome × σ) (msg : String),
        body.length ≠ 0 →
        soapLogout body sessionId corr = (.thrown msg, corr2) →
        singleLogoutSOAPRoute body sessionId corr soapLogout
          = (.send 500 (some "text/xml")
              (soapFaultXml "soap:Server" (xmlEscape msg)), corr2))
    ∧ (∀ (σ : Type) (body : String) (sessionId : Option String) (corr corr2 : σ)
        (soapLogout : String → Option String → σ → SoapOutcome × σ) (x : SoapXml),
        body.length ≠ 0 →
        soapLogout body sessionId corr = (.envelope x, corr2) →
        singleLogoutSOAPRoute body sessionId corr soapLogout
          = (.send 200 (some "text/xml") (renderSoap x), corr2)) := by
  refine ⟨xmlEscape_roundtrip, fun σ sid corr f => rfl, ?_, ?_⟩
  · intro σ body sid corr corr2 f msg hb hf
    unfold singleLogoutSOAPRoute
    rw [if_neg hb, hf]
  · intro σ body sid corr corr2 f x hb hf
    unfold singleLogoutSOAPRoute
    rw [if_neg hb, hf]

theorem soap_fault_encoding_c5_witness :
    xmlUnescape (xmlEscapeL ['a', '<', '&']) = some ['a', '<', '&']
    ∧ singleLogoutSOAPRoute "x" none 0
        (fun _ _ c => (SoapOutcome.thrown "bad & worse", c))
      = (.send 500 (some "text/xml")
          (soapFaultXml "soap:Server" (xmlEscape "bad & worse")), 0) :=
  ⟨soap_fault_encoding_c5.1 ['a', '<', '&'],
   soap_fault_encoding_c5.2.2.1 Nat "x" none 0 0
     (fun _ _ c => (SoapOutcome.thrown "bad & worse", c)) "bad & worse"
     (by decide) rfl⟩

/- ### Metadata claim -/

/-- C8: `getMetadata` is a pure function of the Server Manager's
configuration (a Lean function of exactly that argument, no other state): it
fails with `NotConfigured` whenever no handle is active, renders the
metadata of the active handle otherwise, and on success the `GET /metadata`
route sends that XML with Content-Type `application/samlmetadata+xml`. -/
theorem metadata_c8 :
    getMetadata none = .error .notConfigured
    ∧ (∀ h : ServerHandle, getMetadata (some h) = .ok (renderMetadata h))
    ∧ (∀ h : ServerHandle,
        metadataRoute (some h)
          = .send 200 (some "application/samlmetadata+xml") (renderMetadata h)) :=
  ⟨rfl, fun _ => rfl, fun _ => rfl⟩

/- ### Unauthenticated SSO claim -/

/-- C10: on `/singleSignOn`, whenever the session lookup yields nothing —
no (truthy) session ID, no session accessor, or the accessor returning no
record — and no `requireAuth` middleware is configured, the handler answers
401 `Authentication required`, and `buildSAMLResponse` is not invoked (the
returned flag is false). -/
theorem sso_unauthenticated_c10 {ρ : Type} (ctx : SSOContext)
    (sessionId : Option String) (getSessionData : Option (String → Option ρ))
    (build : SSOContext → ρ → String → HttpInstr)
    (h : lookupSession sessionId getSessionData = none) :
    singleSignOnRoute (.ok ctx) sessionId getSessionData false build
      = (.send 401 none "Authentication required", false) := by
  simp [singleSignOnRoute, h]

theorem sso_unauthenticated_c10_witness :
    lookupSession none (none : Option (String → Option Nat)) = none
    ∧ singleSignOnRoute (.ok ⟨"sp", .redirect, true, []⟩) none
        (none : Option (String → Option Nat)) false
        (fun _ _ _ => ⟨"GET", "u", none, none⟩)
      = (.send 401 none "Authentication required", false) :=
  ⟨rfl,
   sso_unauthenticated_c10 ⟨"sp", .redirect, true, []⟩ none none
     (fun _ _ _ => ⟨"GET", "u", none, none⟩) rfl⟩

/- ### Binding-codec round-trip -/

theorem findSamlParam_single (r : Bool) (v : List Char) :
    findSamlParam [(samlParamName r, v)] = some v := by
  cases r <;> rfl

/-- C6: `decode` recovers from `encode` an equivalent (binding, message)
pair for both bindings: a Redirect instruction survives deflate-then-base64
encoding followed by base64-then-inflate decoding from the
`SAMLRequest`/`SAMLResponse` query parameter, and a POST instruction
survives base64 encoding followed by base64 decoding from the equivalent
form field, for every byte message (length under the 16-bit framing bound of
the deflate model). -/
theorem codec_roundtrip_c6 (r : Bool) (msg : List Nat)
    (hbytes : ∀ b ∈ msg, b < 256) (hlen : msg.length < 65536) :
    decode (encode (.redirectMsg r msg)) = .ok (.redirect, msg)
    ∧ decode (encode (.postMsg r msg)) = .ok (.post, msg) := by
  have hb2 : ∀ b ∈ deflateRaw msg, b < 256 := by
    intro b hb
    simp only [deflateRaw, List.mem_cons] at hb
    rcases hb with h | h | h
    · subst h
      exact Nat.mod_lt _ (by norm_num)
    · subst h
      exact Nat.mod_lt _ (by norm_num)
    · exact hbytes b h
  have hb64 := base64_roundtrip (deflateRaw msg) hb2
  have hinf : inflateRaw (deflateRaw msg) = some msg := by
    simp only [deflateRaw, inflateRaw]
    rw [if_pos (by omega)]
  constructor
  · simp only [encode, decode, findSamlParam_single, hb64, hinf]
  · have hb64p := base64_roundtrip msg hbytes
    simp only [encode, decode]
    rw [show findSamlParam ([] : List (String × List Char)) = none from rfl]
    simp only [findSamlParam_single, hb64p]

theorem codec_roundtrip_c6_witness :
    (∀ b ∈ [72, 101, 108, 108, 111], b < 256)
    ∧ ([72, 101, 108, 108, 111] : List Nat).length < 65536
    ∧ decode (encode (.redirectMsg false [72, 101, 108, 108, 111]))
        = .ok (.redirect, [72, 101, 108, 108, 111]) :=
  ⟨by decide, by decide,
   (codec_roundtrip_c6 false [72, 101, 108, 108, 111] (by decide) (by decide)).1⟩

/- ### Typed error propagation -/

/-- C3: a binding-decode failure or a toolkit verification failure is
returned by `processAuthnRequest` / `processLogoutRequest` as a typed error
value — `MalformedMessage` for decode failures, `InvalidRequest` or
`UnknownProvider` for verification failures — never thrown: both operations
are total functions into `Except`, so every failure is a value of the error
channel and none propagates as an exception. -/
theorem typed_errors_c3 :
    (∀ (verify : List Nat → Except VerifyError SSOContext) (w : WireRequest)
        (ce : CodecError),
        decode w = .error ce →
        processAuthnRequest verify w = .error .malformedMessage)
    ∧ (∀ (verify : List Nat → Except VerifyError SSOContext) (w : WireRequest)
        (b : SamlBinding) (msg : List Nat) (ve : VerifyError),
        decode w = .ok (b, msg) → verify msg = .error ve →
        processAuthnRequest verify w = .error (typedOfVerify ve)
        ∧ (typedOfVerify ve = .invalidRequest ∨ typedOfVerify ve = .unknownProvider))
    ∧ (∀ (verifyLogout : List Nat → Except VerifyError SSOContext) (w : WireRequest)
        (ce : CodecError),
        decode w = .error ce →
        processLogoutRequest verifyLogout w = .error .malformedMessage)
    ∧ (∀ (verifyLogout : List Nat → Except VerifyError SSOContext) (w : WireRequest)
        (b : SamlBinding) (msg : List Nat) (ve : VerifyError),
        decode w = .ok (b, msg) → verifyLogout msg = .error ve →
        processLogoutRequest verifyLogout w = .error (typedOfVerify ve)
        ∧ (typedOfVerify ve = .invalidRequest ∨ typedOfVerify ve = .unknownProvider)) := by
  refine ⟨?_, ?_, ?_, ?_⟩
  · intro verify w ce hd
    unfold processAuthnRequest
    rw [hd]
  · intro verify w b msg ve hd hv
    unfold processAuthnRequest
    simp only [hd, hv]
    exact ⟨trivial, by cases ve <;> simp [typedOfVerify]⟩
  · intro verifyLogout w ce hd
    unfold processLogoutRequest
    rw [hd]
  · intro verifyLogout w b msg ve hd hv
    unfold processLogoutRequest
    simp only [hd, hv]
    exact ⟨trivial, by cases ve <;> simp [typedOfVerify]⟩

theorem typed_errors_c3_witness :
    decode ⟨"GET", [], [], []⟩ = .error .malformedMessage
    ∧ processAuthnRequest (fun _ => .error .badSignature) ⟨"GET", [], [], []⟩
        = .error .malformedMessage :=
  ⟨rfl, typed_errors_c3.1 (fun _ => .error .badSignature) ⟨"GET", [], [], []⟩
    .malformedMessage rfl⟩

theorem soap_always_envelope_c2_witness :
    ∃ (status : Nat) (x : SoapXml),
      (singleLogoutSOAPRoute "<LogoutRequest/>" none (0 : Nat)
          (fun _ _ c => (.envelope (.success "<samlp:LogoutResponse/>"), c))).1
        = .send status (some "text/xml") (renderSoap x) :=
  soap_always_envelope_c2 "<LogoutRequest/>" none 0
    (fun _ _ c => (.envelope (.success "<samlp:LogoutResponse/>"), c))

theorem soap_empty_body_c4_witness :
    singleLogoutSOAPRoute "" none (0 : Nat)
        (fun _ _ c => (.envelope (.success ""), c))
      = (.send 400 (some "text/xml")
          (soapFaultXml "soap:Client" "Empty SOAP body"), 0) :=
  soap_empty_body_c4 none 0 (fun _ _ c => (.envelope (.success ""), c))

theorem metadata_c8_witness :
    metadataRoute (some ⟨"https://idp", "https://idp/sso", "https://idp/ssoPost",
        "https://idp/slo", "https://idp/sloSoap", "CERT"⟩)
      = .send 200 (some "application/samlmetadata+xml")
          (renderMetadata ⟨"https://idp", "https://idp/sso", "https://idp/ssoPost",
            "https://idp/slo", "https://idp/sloSoap", "CERT"⟩) :=
  metadata_c8.2.2 ⟨"https://idp", "https://idp/sso", "https://idp/ssoPost",
    "https://idp/slo", "https://idp/sloSoap", "CERT"⟩
